import Mathlib

/-!
Verification development for the countdown/habit-tracker client
(src/frontend/src/App.js).  The pure logic of the client is embedded
shallowly: timestamps are integers counted in whole seconds, the JS
number fields that hold percentages are rationals, and each handler or
helper from App.js becomes a Lean function with the same name.
-/

/-- Countdown entity (spec section 3; App.js).  `target_date` is a timestamp
in whole seconds.  `notify_before` is minutes-before-target, `none` when the
field is absent (the form's "No notification" choice). -/
structure Countdown where
  id : String
  title : String
  description : String
  target_date : Int
  notify_before : Option Nat
  is_timer : Bool
  is_completed : Bool
deriving DecidableEq

/-- Habit entity (spec section 3; App.js).  `custom_days` is `none` when the
field is absent, `some ds` when a days-of-week list (0-6, Sunday-Saturday)
is present. -/
structure Habit where
  id : String
  title : String
  description : String
  frequency : String
  custom_days : Option (List Nat)
  category_id : Option String
deriving DecidableEq

/-- Category entity (spec section 3; App.js). -/
structure Category where
  id : String
  name : String
  color : String
deriving DecidableEq

/-- Per-habit statistics record returned by the stats endpoint, as consumed
by HabitStats and StatsOverview in App.js.  `completion_rate` is a
percentage. -/
structure HabitStat where
  completion_rate : ℚ
  current_streak : Nat
  longest_streak : Nat
  total_completions : Nat
deriving DecidableEq

/-- Result record of calculateTimeRemaining (App.js lines 107-122). -/
structure TimeRemaining where
  days : Nat
  hours : Nat
  minutes : Nat
  seconds : Nat
  isComplete : Bool
deriving DecidableEq

/-- calculateTimeRemaining (App.js lines 107-122).  `target` and `now` are
timestamps in whole seconds, so `target - now` is exactly date-fns
differenceInSeconds(target, now).  On the positive branch the JS
Math.floor over nonnegative values is Nat division. -/
def calculateTimeRemaining (target now : Int) : TimeRemaining :=
  let diffInSeconds := target - now
  if diffInSeconds ≤ 0 then
    { days := 0, hours := 0, minutes := 0, seconds := 0, isComplete := true }
  else
    let n := diffInSeconds.toNat
    { days := n / (24 * 60 * 60)
      hours := n % (24 * 60 * 60) / (60 * 60)
      minutes := n % (60 * 60) / 60
      seconds := n % 60
      isComplete := false }

/-- One background effect issued by an execution of checkNotifications
(App.js lines 331-371): a reminder desktop notification (carrying the
countdown title and the notify_before minutes interpolated into the
message), a completion desktop notification, or the PUT request
`axios.put(api/countdowns/id, payload)`. -/
inductive CdAction where
  | reminder (title : String) (minutesBefore : Nat)
  | completeNotice (title : String)
  | putUpdate (id : String) (payload : Countdown)
deriving DecidableEq

/-- The PUT payload `\x7b...countdown, is_completed: true\x7d` of App.js line
355: the countdown with only `is_completed` set to true. -/
def markCompleted (c : Countdown) : Countdown :=
  { c with is_completed := true }

/-- Body of the forEach inside checkNotifications (App.js lines 333-361),
returning the effects issued for one countdown, in program order.  The JS
guard `countdown.notify_before && !countdown.is_completed` is truthiness:
the field must be present and nonzero.  `addMinutes(x, 1)` is `x + 60`
seconds and `addMinutes(targetDate, -notify_before)` is
`target_date - notify_before * 60`. -/
def checkCountdown (now : Int) (c : Countdown) : List CdAction :=
  match c.notify_before with
  | none => []
  | some nb =>
    if nb ≠ 0 ∧ c.is_completed = false then
      let notifyTime := c.target_date - (nb : Int) * 60
      (if notifyTime ≤ now ∧ now ≤ notifyTime + 60 then
        [CdAction.reminder c.title nb]
      else []) ++
      (if c.target_date ≤ now ∧ now ≤ c.target_date + 60 then
        [CdAction.completeNotice c.title, CdAction.putUpdate c.id (markCompleted c)]
      else [])
    else []

/-- checkNotifications (App.js lines 332-362): iterate checkCountdown over
every fetched countdown, collecting the issued effects in order. -/
def checkNotifications (now : Int) (countdowns : List Countdown) : List CdAction :=
  countdowns.flatMap (checkCountdown now)

/-- Outcome of the POST in handleLogCompletion: success, an HTTP error
response with a status code, or a network error with no response. -/
inductive PostResult where
  | success
  | httpError (status : Nat)
  | networkError
deriving DecidableEq

/-- The alert shown by handleLogCompletion on a 400 response
("You have already logged this habit today"). -/
inductive AlertMsg where
  | alreadyLoggedToday
deriving DecidableEq

/-- handleLogCompletion (App.js lines 762-773).  `habitLogs` is the
logged-today map (habit id to flag); the result is the new map together
with the alert shown, if any.  On success the JS spread
`\x7b...prev, [habitId]: true\x7d` sets the one key; on an error response with
status 400 the already-logged alert is shown; any other failure only logs
to the console. -/
def handleLogCompletion (habitLogs : String → Bool) (habitId : String)
    (res : PostResult) : (String → Bool) × Option AlertMsg :=
  match res with
  | PostResult.success =>
      (fun h => if h = habitId then true else habitLogs h, none)
  | PostResult.httpError status =>
      if status = 400 then (habitLogs, some AlertMsg.alreadyLoggedToday)
      else (habitLogs, none)
  | PostResult.networkError => (habitLogs, none)

/-- JS truthiness-guarded `habit.custom_days && habit.custom_days.includes(d)`
(App.js line 200): false when the field is absent, membership otherwise
(a present empty array is truthy in JS, and includes then returns false). -/
def customDaysContain (custom_days : Option (List Nat)) (d : Nat) : Bool :=
  match custom_days with
  | some ds => ds.contains d
  | none => false

/-- The habit filter predicate of the Home view (App.js lines 197-202):
daily always; weekly only on Monday (day index 1); custom when the
custom_days list contains today's day-of-week index.  The chain of early
returns in the source is the disjunction of the three guards. -/
def isScheduledToday (habit : Habit) (dayOfWeek : Nat) : Bool :=
  habit.frequency == "daily" ||
  (habit.frequency == "weekly" && dayOfWeek == 1) ||
  (habit.frequency == "custom" && customDaysContain habit.custom_days dayOfWeek)

/-- The todaysHabits computation of the Home view (App.js lines 197-202):
filter by isScheduledToday, then `.slice(0, 3)`. -/
def todayHabits (habits : List Habit) (dayOfWeek : Nat) : List Habit :=
  (habits.filter (fun h => isScheduledToday h dayOfWeek)).take 3

/-- Comparison used by the sort in the Home view (App.js line 188):
ascending target_date. -/
def targetLe (a b : Countdown) : Prop :=
  a.target_date ≤ b.target_date

instance : DecidableRel targetLe := fun a b => Int.decLe a.target_date b.target_date

instance : IsTotal Countdown targetLe :=
  ⟨fun a b => Int.le_total a.target_date b.target_date⟩

instance : IsTrans Countdown targetLe :=
  ⟨fun _ _ _ h₁ h₂ => le_trans h₁ h₂⟩

/-- The activeCountdowns computation of the Home view (App.js lines
185-189): keep countdowns with target_date strictly in the future, sort
ascending by target_date (JS stable sort, embedded as insertion sort),
then `.slice(0, 3)`. -/
def activeCountdowns (now : Int) (countdowns : List Countdown) : List Countdown :=
  (List.insertionSort targetLe
    (countdowns.filter (fun c => now < c.target_date))).take 3

/-- handleDeleteCountdown local-state update (App.js line 323):
`countdowns.filter(c => c.id !== id)` after a successful DELETE. -/
def handleDeleteCountdown (countdowns : List Countdown) (id : String) : List Countdown :=
  countdowns.filter (fun c => c.id != id)

/-- handleDeleteHabit local-state update (App.js line 755):
`habits.filter(h => h.id !== id)` after a successful DELETE. -/
def handleDeleteHabit (habits : List Habit) (id : String) : List Habit :=
  habits.filter (fun h => h.id != id)

/-- handleDeleteCategory local-state update (App.js line 1120):
`categories.filter(c => c.id !== id)` after a successful DELETE. -/
def handleDeleteCategory (categories : List Category) (id : String) : List Category :=
  categories.filter (fun c => c.id != id)

/-- handleCustomDayToggle (App.js lines 924-935): `indexOf(day) > -1`
tests membership; when found, splice removes the first occurrence
(List.erase), otherwise push appends the day at the end. -/
def handleCustomDayToggle (custom_days : List Nat) (day : Nat) : List Nat :=
  if day ∈ custom_days then custom_days.erase day
  else custom_days ++ [day]

/-- Result record of calculateOverallStats (App.js lines 1510-1534). -/
structure OverallStats where
  averageCompletionRate : ℚ
  totalStreaks : Nat
  longestStreak : Nat
deriving DecidableEq

/-- calculateOverallStats (App.js lines 1510-1534): over the collected
per-habit stats, accumulate the completion rates, the current streaks and
the running maximum of the longest streaks, then divide the rate total by
the number of records; all zero when there are no records. -/
def calculateOverallStats (stats : List HabitStat) : OverallStats :=
  if stats.isEmpty then
    { averageCompletionRate := 0, totalStreaks := 0, longestStreak := 0 }
  else
    { averageCompletionRate :=
        (stats.foldl (fun acc s => acc + s.completion_rate) 0) / (stats.length : ℚ)
      totalStreaks := stats.foldl (fun acc s => acc + s.current_streak) 0
      longestStreak := stats.foldl (fun acc s => max acc s.longest_streak) 0 }

/-- The two slice values of the per-habit pie chart (App.js line 1339):
`[stats.total_completions, 100 - stats.completion_rate]`. -/
def pieSlices (stats : HabitStat) : ℚ × ℚ :=
  ((stats.total_completions : ℚ), 100 - stats.completion_rate)

/-- A countdown whose notification option is off: used to exercise
checkNotifications on an expired countdown with no notify_before. -/
def cdNoNotify : Countdown :=
  { id := "cd1", title := "t1", description := "", target_date := 0,
    notify_before := none, is_timer := false, is_completed := false }

/-- A countdown with a 5-minute notification, not completed, target at 100. -/
def cdNotify : Countdown :=
  { id := "cd2", title := "t2", description := "", target_date := 100,
    notify_before := some 5, is_timer := false, is_completed := false }

/-- A sample per-habit stats record: 50 percent completion rate,
5 total completions. -/
def statEx : HabitStat :=
  { completion_rate := 50, current_streak := 2, longest_streak := 7,
    total_completions := 5 }

/-- A sample habit scheduled daily. -/
def habitDaily : Habit :=
  { id := "h1", title := "t", description := "", frequency := "daily",
    custom_days := none, category_id := none }

/-- A sample future countdown (target 50, no notification). -/
def cdFuture : Countdown :=
  { id := "cd3", title := "t3", description := "", target_date := 50,
    notify_before := none, is_timer := false, is_completed := false }

/-- C4: calculateTimeRemaining performs the countdown date arithmetic
correctly.  With d the whole-second difference target minus now: when
d ≤ 0 all components are 0 and isComplete is true; when d > 0 the result
is the floor-division decomposition of d into days, hours, minutes and
seconds, which recombines to d with hours < 24, minutes < 60,
seconds < 60, and isComplete is false. -/
theorem claim_C4 (target now : Int) :
    (target - now ≤ 0 →
      calculateTimeRemaining target now =
        { days := 0, hours := 0, minutes := 0, seconds := 0, isComplete := true }) ∧
    (0 < target - now →
      (calculateTimeRemaining target now).isComplete = false ∧
      (calculateTimeRemaining target now).days = (target - now).toNat / 86400 ∧
      (calculateTimeRemaining target now).hours = (target - now).toNat % 86400 / 3600 ∧
      (calculateTimeRemaining target now).minutes = (target - now).toNat % 3600 / 60 ∧
      (calculateTimeRemaining target now).seconds = (target - now).toNat % 60 ∧
      (calculateTimeRemaining target now).days * 86400 +
        (calculateTimeRemaining target now).hours * 3600 +
        (calculateTimeRemaining target now).minutes * 60 +
        (calculateTimeRemaining target now).seconds = (target - now).toNat ∧
      (calculateTimeRemaining target now).hours < 24 ∧
      (calculateTimeRemaining target now).minutes < 60 ∧
      (calculateTimeRemaining target now).seconds < 60) := by
  constructor
  · intro h
    simp [calculateTimeRemaining, h]
  · intro h
    have h' : ¬ (target - now ≤ 0) := not_le.mpr h
    simp only [calculateTimeRemaining, if_neg h']
    refine ⟨?_, ?_, ?_, ?_, ?_, ?_, ?_, ?_, ?_⟩ <;> first | trivial | omega

/-- C4 witness: the positive branch of claim_C4 evaluated at a concrete
difference of 100000 seconds. -/
theorem claim_C4_witness :
    (calculateTimeRemaining 100000 0).isComplete = false :=
  ((claim_C4 100000 0).2 (by decide)).1

/-- C3: handleLogCompletion sets the logged-today flag only on POST
success; a 400 response raises the already-logged alert and leaves the
map unchanged; every non-success outcome leaves the map unchanged. -/
theorem claim_C3 :
    (∀ (logs : String → Bool) (habitId : String),
      handleLogCompletion logs habitId PostResult.success =
        (fun h => if h = habitId then true else logs h, none)) ∧
    (∀ (logs : String → Bool) (habitId : String),
      handleLogCompletion logs habitId (PostResult.httpError 400) =
        (logs, some AlertMsg.alreadyLoggedToday)) ∧
    (∀ (logs : String → Bool) (habitId : String) (res : PostResult),
      res ≠ PostResult.success → (handleLogCompletion logs habitId res).1 = logs) := by
  refine ⟨fun _ _ => rfl, fun _ _ => by simp [handleLogCompletion], ?_⟩
  intro logs habitId res hres
  cases res with
  | success => exact absurd rfl hres
  | httpError status =>
    by_cases h4 : status = 400 <;> simp [handleLogCompletion, h4]
  | networkError => rfl

/-- C3 witness: the unchanged-on-error part of claim_C3 applied at a
concrete 400 response. -/
theorem claim_C3_witness :
    (handleLogCompletion (fun _ => false) "h1" (PostResult.httpError 400)).1 =
      (fun _ => false) :=
  claim_C3.2.2 (fun _ => false) "h1" (PostResult.httpError 400) (by decide)

/-- C9: the per-habit pie chart is built from the pair
[total_completions, 100 - completion_rate]; at the sample record the two
slices sum to 55, not 100, and the first slice is not the completion
rate. -/
theorem claim_C9 :
    (∀ s : HabitStat,
      pieSlices s = ((s.total_completions : ℚ), 100 - s.completion_rate)) ∧
    (pieSlices statEx).1 + (pieSlices statEx).2 ≠ 100 ∧
    (pieSlices statEx).1 ≠ statEx.completion_rate := by
  refine ⟨fun s => rfl, ?_, ?_⟩ <;> norm_num [pieSlices, statEx]

/-- C8: each confirmed successful delete handler replaces the local list
by the same list with exactly the entries carrying the given id removed:
the new list is a sublist of the old one (all other entries unchanged, in
order) and membership keeps exactly the entries whose id differs. -/
theorem claim_C8 (countdowns : List Countdown) (habits : List Habit)
    (categories : List Category) (id : String) :
    List.Sublist (handleDeleteCountdown countdowns id) countdowns ∧
    (∀ c : Countdown,
      c ∈ handleDeleteCountdown countdowns id ↔ c ∈ countdowns ∧ c.id ≠ id) ∧
    List.Sublist (handleDeleteHabit habits id) habits ∧
    (∀ h : Habit, h ∈ handleDeleteHabit habits id ↔ h ∈ habits ∧ h.id ≠ id) ∧
    List.Sublist (handleDeleteCategory categories id) categories ∧
    (∀ c : Category,
      c ∈ handleDeleteCategory categories id ↔ c ∈ categories ∧ c.id ≠ id) := by
  refine ⟨List.filter_sublist _, ?_, List.filter_sublist _, ?_,
    List.filter_sublist _, ?_⟩ <;>
      intro x <;>
        simp [handleDeleteCountdown, handleDeleteHabit, handleDeleteCategory,
          List.mem_filter, bne_iff_ne, and_comm]

/-- C10 counterexample: on the duplicate list [3, 3] a single toggle of 3
does not remove its membership, and a double toggle of 3 yields [],
changing the membership of 3 relative to the original list.  This
refutes the claim as stated over every list of days. -/
theorem claim_C10_counterexample :
    (3 ∈ [3, 3]) ∧ 3 ∈ handleCustomDayToggle [3, 3] 3 ∧
    handleCustomDayToggle (handleCustomDayToggle [3, 3] 3) 3 = [] ∧
    3 ∉ handleCustomDayToggle (handleCustomDayToggle [3, 3] 3) 3 := by decide

/-- C10 (amended): over duplicate-free day lists - the only ones the
checkbox form produces - handleCustomDayToggle removes the day when
present (leaving the other days unchanged and in order) and appends it
when absent, and toggling the same day twice preserves membership. -/
theorem claim_C10 (days : List Nat) (day : Nat) (hnd : days.Nodup) :
    (day ∈ days →
      handleCustomDayToggle days day = days.erase day ∧
      day ∉ handleCustomDayToggle days day ∧
      List.Sublist (handleCustomDayToggle days day) days ∧
      (∀ d, d ≠ day → (d ∈ handleCustomDayToggle days day ↔ d ∈ days))) ∧
    (day ∉ days → handleCustomDayToggle days day = days ++ [day]) ∧
    (∀ d, d ∈ handleCustomDayToggle (handleCustomDayToggle days day) day ↔
      d ∈ days) := by
  refine ⟨?_, ?_, ?_⟩
  · intro hmem
    have he : handleCustomDayToggle days day = days.erase day := by
      simp [handleCustomDayToggle, hmem]
    refine ⟨he, ?_, ?_, ?_⟩
    · rw [he]; exact hnd.not_mem_erase
    · rw [he]; exact List.erase_sublist day days
    · intro d hd
      rw [he, hnd.mem_erase_iff]
      exact ⟨fun h => h.2, fun h => ⟨hd, h⟩⟩
  · intro hmem
    simp [handleCustomDayToggle, hmem]
  · intro d
    by_cases hmem : day ∈ days
    · have h1 : handleCustomDayToggle days day = days.erase day := by
        simp [handleCustomDayToggle, hmem]
      have h2 : day ∉ days.erase day := hnd.not_mem_erase
      rw [h1, handleCustomDayToggle, if_neg h2, List.mem_append,
        List.mem_singleton, hnd.mem_erase_iff]
      constructor
      · rintro (⟨_, h⟩ | rfl)
        · exact h
        · exact hmem
      · intro h
        by_cases hd : d = day
        · exact Or.inr hd
        · exact Or.inl ⟨hd, h⟩
    · have h1 : handleCustomDayToggle days day = days ++ [day] := by
        simp [handleCustomDayToggle, hmem]
      rw [h1, handleCustomDayToggle, if_pos (by simp),
        List.erase_append_right [day] hmem]
      simp

/-- C10 witness: claim_C10 applied to the duplicate-free list [1, 2]
toggling the present day 2. -/
theorem claim_C10_witness :
    2 ∉ handleCustomDayToggle [1, 2] 2 :=
  ((claim_C10 [1, 2] 2 (by decide)).1 (by decide)).2.1

/-- C5: a habit is scheduled for today exactly when its frequency is
daily, or weekly on day index 1 (Monday), or custom with today's
day-of-week index in its custom_days list; the home view shows at most
the first 3 such habits. -/
theorem claim_C5 (habit : Habit) (dayOfWeek : Nat) (habits : List Habit) :
    (isScheduledToday habit dayOfWeek = true ↔
      habit.frequency = "daily" ∨
      (habit.frequency = "weekly" ∧ dayOfWeek = 1) ∨
      (habit.frequency = "custom" ∧
        ∃ ds, habit.custom_days = some ds ∧ dayOfWeek ∈ ds)) ∧
    todayHabits habits dayOfWeek =
      (habits.filter (fun h => isScheduledToday h dayOfWeek)).take 3 ∧
    (todayHabits habits dayOfWeek).length ≤ 3 ∧
    (∀ h ∈ todayHabits habits dayOfWeek,
      h ∈ habits ∧ isScheduledToday h dayOfWeek = true) := by
  refine ⟨?_, rfl, ?_, ?_⟩
  · cases hcd : habit.custom_days with
    | none => simp [isScheduledToday, customDaysContain, hcd]
    | some ds => simp [isScheduledToday, customDaysContain, hcd, or_assoc]
  · simp only [todayHabits, List.length_take]
    exact Nat.min_le_left _ _
  · intro h hm
    have h1 : h ∈ habits.filter (fun x => isScheduledToday x dayOfWeek) :=
      List.mem_of_mem_take hm
    have h2 := List.mem_filter.mp h1
    exact ⟨h2.1, h2.2⟩

/-- C5 witness: claim_C5 applied to a daily habit on day index 0. -/
theorem claim_C5_witness :
    habitDaily ∈ [habitDaily] ∧ isScheduledToday habitDaily 0 = true :=
  (claim_C5 habitDaily 0 [habitDaily]).2.2.2 habitDaily (by decide)

/-- Folding addition of a projected value over a list equals the initial
accumulator plus the sum of the projections. -/
theorem foldl_add_map {M : Type} [AddCommMonoid M] (f : HabitStat → M) :
    ∀ (l : List HabitStat) (init : M),
      l.foldl (fun acc s => acc + f s) init = init + (l.map f).sum := by
  intro l
  induction l with
  | nil => intro init; simp
  | cons a t ih =>
    intro init
    simp [List.foldl_cons, ih, add_assoc]

/-- Folding max of the longest streaks bounds the initial accumulator and
every projected value from below. -/
theorem foldl_max_le (l : List HabitStat) : ∀ init : Nat,
    init ≤ l.foldl (fun acc s => max acc s.longest_streak) init ∧
    ∀ s ∈ l,
      s.longest_streak ≤ l.foldl (fun acc s => max acc s.longest_streak) init := by
  induction l with
  | nil => intro init; simp
  | cons a t ih =>
    intro init
    have h1 := ih (max init a.longest_streak)
    refine ⟨le_trans (Nat.le_max_left _ _) h1.1, ?_⟩
    intro s hs
    rcases List.mem_cons.mp hs with rfl | hst
    · exact le_trans (Nat.le_max_right _ _) h1.1
    · exact h1.2 s hst

/-- The folded max of the longest streaks is the initial accumulator or
one of the projected values. -/
theorem foldl_max_attained (l : List HabitStat) : ∀ init : Nat,
    l.foldl (fun acc s => max acc s.longest_streak) init = init ∨
    ∃ s ∈ l,
      l.foldl (fun acc s => max acc s.longest_streak) init = s.longest_streak := by
  induction l with
  | nil => intro init; exact Or.inl rfl
  | cons a t ih =>
    intro init
    rcases ih (max init a.longest_streak) with h0 | ⟨s, hs, he⟩
    · rcases Nat.le_total init a.longest_streak with hle | hle
      · refine Or.inr ⟨a, List.mem_cons_self a t, ?_⟩
        rw [List.foldl_cons, h0]
        exact Nat.max_eq_right hle
      · refine Or.inl ?_
        rw [List.foldl_cons, h0]
        exact Nat.max_eq_left hle
    · exact Or.inr ⟨s, List.mem_cons_of_mem a hs, he⟩

/-- C6: calculateOverallStats returns all zeros on an empty collection;
on a non-empty collection the average completion rate is the sum of the
rates divided by the count, the total streaks is the sum of the current
streaks, and the longest streak is the maximum of the longest-streak
values (an upper bound that is attained). -/
theorem claim_C6 :
    calculateOverallStats [] =
      { averageCompletionRate := 0, totalStreaks := 0, longestStreak := 0 } ∧
    ∀ stats : List HabitStat, stats ≠ [] →
      (calculateOverallStats stats).averageCompletionRate =
        (stats.map HabitStat.completion_rate).sum / (stats.length : ℚ) ∧
      (calculateOverallStats stats).totalStreaks =
        (stats.map HabitStat.current_streak).sum ∧
      (∀ s ∈ stats,
        s.longest_streak ≤ (calculateOverallStats stats).longestStreak) ∧
      ∃ s ∈ stats,
        (calculateOverallStats stats).longestStreak = s.longest_streak := by
  constructor
  · rfl
  · intro stats hne
    have hie : stats.isEmpty = false := by
      cases stats with
      | nil => exact absurd rfl hne
      | cons a t => rfl
    simp only [calculateOverallStats, hie, Bool.false_eq_true, if_false]
    refine ⟨by rw [foldl_add_map]; rw [zero_add], by rw [foldl_add_map]; rw [zero_add], ?_, ?_⟩
    · intro s hs
      exact (foldl_max_le stats 0).2 s hs
    · rcases foldl_max_attained stats 0 with h0 | hex
      · cases stats with
        | nil => exact absurd rfl hne
        | cons a t =>
          refine ⟨a, List.mem_cons_self a t, ?_⟩
          have ha := (foldl_max_le (a :: t) 0).2 a (List.mem_cons_self a t)
          omega
      · exact hex

/-- C6 witness: claim_C6 applied to the one-record collection [statEx]. -/
theorem claim_C6_witness :
    (calculateOverallStats [statEx]).totalStreaks = 2 := by
  have h := (claim_C6.2 [statEx] (by simp)).2.1
  simpa [statEx] using h

/-- C7: the home view's upcoming-countdowns list is the first 3 of a
sorted-ascending rearrangement of exactly the countdowns whose
target_date is strictly after the current time; hence it is itself
sorted, every shown countdown is a future one from the fetched list, and
its length is the truncation to 3. -/
theorem claim_C7 (now : Int) (countdowns : List Countdown) :
    ∃ l : List Countdown,
      l.Perm (countdowns.filter (fun c => now < c.target_date)) ∧
      l.Sorted targetLe ∧
      activeCountdowns now countdowns = l.take 3 ∧
      (activeCountdowns now countdowns).Sorted targetLe ∧
      (∀ c ∈ activeCountdowns now countdowns,
        c ∈ countdowns ∧ now < c.target_date) ∧
      (activeCountdowns now countdowns).length =
        min 3 (countdowns.filter (fun c => now < c.target_date)).length := by
  refine ⟨List.insertionSort targetLe
      (countdowns.filter (fun c => now < c.target_date)),
    List.perm_insertionSort _ _, List.sorted_insertionSort _ _, rfl, ?_, ?_, ?_⟩
  · exact List.Pairwise.sublist (List.take_sublist 3 _)
      (List.sorted_insertionSort _ _)
  · intro c hc
    have h1 : c ∈ List.insertionSort targetLe
        (countdowns.filter (fun c => now < c.target_date)) :=
      List.mem_of_mem_take hc
    have h2 : c ∈ countdowns.filter (fun c => now < c.target_date) :=
      (List.perm_insertionSort targetLe _).subset h1
    have h3 := List.mem_filter.mp h2
    exact ⟨h3.1, by simpa using h3.2⟩
  · simp [activeCountdowns, List.length_take,
      (List.perm_insertionSort targetLe
        (countdowns.filter (fun c => now < c.target_date))).length_eq]

/-- C7 witness: claim_C7 applied to a single future countdown at time 0. -/
theorem claim_C7_witness :
    cdFuture ∈ [cdFuture] ∧ (0 : Int) < cdFuture.target_date := by
  obtain ⟨l, -, -, -, -, hmem, -⟩ := claim_C7 0 [cdFuture]
  exact hmem cdFuture (by decide)

/-- Characterization of the effects issued for one countdown by the
notification check: anything issued requires a present nonzero
notify_before and an incomplete countdown, and is either the reminder in
its window or the completion notice / PUT pair in the one-minute window
after the target. -/
theorem mem_checkCountdown (now : Int) (c : Countdown) (a : CdAction) :
    a ∈ checkCountdown now c ↔
      ∃ nb, c.notify_before = some nb ∧ nb ≠ 0 ∧ c.is_completed = false ∧
        ((a = CdAction.reminder c.title nb ∧
          c.target_date - (nb : Int) * 60 ≤ now ∧
          now ≤ c.target_date - (nb : Int) * 60 + 60) ∨
         ((a = CdAction.completeNotice c.title ∨
           a = CdAction.putUpdate c.id (markCompleted c)) ∧
          c.target_date ≤ now ∧ now ≤ c.target_date + 60)) := by
  cases hnb : c.notify_before with
  | none => simp [checkCountdown, hnb]
  | some m =>
    simp only [checkCountdown, hnb]
    split_ifs with hg hw1 hw2 hw2 <;> simp_all

/-- C2: the reminder notification is sent exactly when notify_before is
set (present, nonzero), the countdown is not completed, and the current
time lies in the one-minute window starting at target_date minus
notify_before minutes; the completion notification is sent exactly when
notify_before is set, the countdown is not completed, and the current
time lies in the one-minute window starting at target_date. -/
theorem claim_C2 (now : Int) (c : Countdown) (nb : Nat) :
    (CdAction.reminder c.title nb ∈ checkCountdown now c ↔
      c.notify_before = some nb ∧ nb ≠ 0 ∧ c.is_completed = false ∧
      c.target_date - (nb : Int) * 60 ≤ now ∧
      now ≤ c.target_date - (nb : Int) * 60 + 60) ∧
    (CdAction.completeNotice c.title ∈ checkCountdown now c ↔
      (∃ m, c.notify_before = some m ∧ m ≠ 0) ∧ c.is_completed = false ∧
      c.target_date ≤ now ∧ now ≤ c.target_date + 60) := by
  constructor
  · rw [mem_checkCountdown]
    constructor
    · rintro ⟨m, hm, hm0, hcpl, (⟨heq, hw⟩ | ⟨heq, hw⟩)⟩
      · have hnb : nb = m := by
          injection heq
        subst hnb
        exact ⟨hm, hm0, hcpl, hw⟩
      · rcases heq with heq | heq <;> exact absurd heq (by simp)
    · rintro ⟨hm, hm0, hcpl, hw1, hw2⟩
      exact ⟨nb, hm, hm0, hcpl, Or.inl ⟨rfl, hw1, hw2⟩⟩
  · rw [mem_checkCountdown]
    constructor
    · rintro ⟨m, hm, hm0, hcpl, (⟨heq, hw⟩ | ⟨heq, hw⟩)⟩
      · exact absurd heq (by simp)
      · exact ⟨⟨m, hm, hm0⟩, hcpl, hw⟩
    · rintro ⟨⟨m, hm, hm0⟩, hcpl, hw1, hw2⟩
      exact ⟨m, hm, hm0, hcpl, Or.inr ⟨Or.inl rfl, hw1, hw2⟩⟩

/-- C1 counterexample: an expired, not-completed countdown with no
notify_before value.  The claim as stated requires the notification
check at a time at or after the target to issue the completing PUT, but
checkNotifications issues nothing for it. -/
theorem claim_C1_counterexample :
    cdNoNotify.is_completed = false ∧ cdNoNotify.target_date ≤ 0 ∧
    CdAction.putUpdate cdNoNotify.id (markCompleted cdNoNotify) ∉
      checkNotifications 0 [cdNoNotify] := by decide

/-- C1 (amended): the notification check issues the update setting
is_completed to true for a countdown exactly when that countdown has
notify_before set (present, nonzero), is not yet completed, and the
current time lies in the one-minute window starting at its target_date;
every PUT it issues is that very update for that very countdown (the
only background mutation), and an execution over a fetched list issues
exactly the per-countdown effects. -/
theorem claim_C1 (now : Int) (c : Countdown) :
    (CdAction.putUpdate c.id (markCompleted c) ∈ checkCountdown now c ↔
      (∃ nb, c.notify_before = some nb ∧ nb ≠ 0) ∧ c.is_completed = false ∧
      c.target_date ≤ now ∧ now ≤ c.target_date + 60) ∧
    (∀ i p, CdAction.putUpdate i p ∈ checkCountdown now c →
      i = c.id ∧ p = markCompleted c) ∧
    (∀ countdowns a, a ∈ checkNotifications now countdowns ↔
      ∃ x ∈ countdowns, a ∈ checkCountdown now x) := by
  refine ⟨?_, ?_, ?_⟩
  · rw [mem_checkCountdown]
    constructor
    · rintro ⟨m, hm, hm0, hcpl, (⟨heq, hw⟩ | ⟨heq, hw⟩)⟩
      · exact absurd heq (by simp)
      · exact ⟨⟨m, hm, hm0⟩, hcpl, hw⟩
    · rintro ⟨⟨m, hm, hm0⟩, hcpl, hw1, hw2⟩
      exact ⟨m, hm, hm0, hcpl, Or.inr ⟨Or.inr rfl, hw1, hw2⟩⟩
  · intro i p hmem
    rw [mem_checkCountdown] at hmem
    rcases hmem with ⟨m, hm, hm0, hcpl, (⟨heq, hw⟩ | ⟨(heq | heq), hw⟩)⟩
    · exact absurd heq (by simp)
    · exact absurd heq (by simp)
    · refine ⟨?_, ?_⟩ <;> injection heq
  · intro countdowns a
    simp [checkNotifications]

/-- C1 witness: the amended claim's PUT-shape part applied at the
concrete countdown cdNotify at its target time, with the concrete
membership discharged by evaluation. -/
theorem claim_C1_witness :
    "cd2" = cdNotify.id ∧ markCompleted cdNotify = markCompleted cdNotify :=
  (claim_C1 100 cdNotify).2.1 "cd2" (markCompleted cdNotify) (by decide)
